import Mathlib

/-!
Verification development for the LLM-driven trade-planning pipeline of the
paper-trading repository.  The TypeScript sources are shallowly embedded:

* `Prisma.Decimal` (exact decimal cash/quantity/price arithmetic) is modelled
  by `ℚ`; the database transaction of `executeTradeInputs` is modelled by an
  `Except`-valued state transition plus the rollback wrapper `runBatch`.
* network calls (`fetch`, `getQuote`) are modelled by explicit oracle
  functions passed as parameters.
* `JSON.parse` is modelled by an executable JSON parser `parseJson`; the zod
  schema `arbitragePlanSchema` is modelled by `validateArbitragePlan`.

Each definition mirrors one function of the source tree
(`apps/server/src/portfolio.ts`, `portfolioService.ts`, `providerUtils.ts`,
`llmService.ts`, `llmSchema.ts`).
-/

/-- Trade direction, `TradeSide` of portfolio.ts. -/
inductive TradeSide where
  | BUY
  | SELL
deriving DecidableEq, Repr

/-- One normalized trade instruction, `TradeInput` of portfolio.ts.
`qty` and `price` are `Prisma.Decimal` values in the source, modelled as `ℚ`. -/
structure TradeInput where
  symbol : String
  side : TradeSide
  qty : ℚ
  price : ℚ
deriving DecidableEq, Repr

/-- A position row (`Position` of the database schema): quantity and average
cost basis price for one symbol of one portfolio. -/
structure Position where
  symbol : String
  qty : ℚ
  avgPrice : ℚ
deriving DecidableEq, Repr

/-- An appended ledger entry (`Trade` row, via `createTradeRecord`); the
timestamp is ambient wall-clock time and is not modelled. -/
structure TradeRec where
  symbol : String
  side : TradeSide
  qty : ℚ
  price : ℚ
deriving DecidableEq, Repr

/-- The portfolio state touched by the Ledger Executor: cash balance, the
position rows and the append-only trade ledger of one portfolio. -/
structure PortfolioState where
  cash : ℚ
  positions : List Position
  trades : List TradeRec
deriving DecidableEq, Repr

/-- The `{qty, avgPrice}` object returned by `applyTrade` in portfolio.ts. -/
structure PosQtyAvg where
  qty : ℚ
  avgPrice : ℚ
deriving DecidableEq, Repr

/-- Embedding of `applyTrade` (portfolio.ts lines 27-65): position-update
arithmetic for one trade, including the oversell and missing-position errors. -/
def applyTrade (position : Option Position) (trade : TradeInput) :
    Except String PosQtyAvg :=
  match position with
  | none =>
    if trade.side = TradeSide.SELL then
      Except.error "Cannot sell a position that does not exist"
    else
      Except.ok ⟨trade.qty, trade.price⟩
  | some pos =>
    if trade.side = TradeSide.BUY then
      Except.ok ⟨pos.qty + trade.qty,
        if pos.qty + trade.qty = 0 then 0
        else (pos.avgPrice * pos.qty + trade.price * trade.qty) / (pos.qty + trade.qty)⟩
    else if pos.qty < trade.qty then
      Except.error "Cannot sell more shares than currently held"
    else
      Except.ok ⟨pos.qty - trade.qty,
        if pos.qty - trade.qty = 0 then 0 else pos.avgPrice⟩

/-- Embedding of the prisma `position.findFirst` lookup by portfolio and
symbol used in `executeTradeInputs`. -/
def findPos (positions : List Position) (symbol : String) : Option Position :=
  positions.find? (fun p => p.symbol == symbol)

/-- Deletion of the found position row (`tx.position.delete` by id): removes
the first row with the given symbol. -/
def removePos : List Position → String → List Position
  | [], _ => []
  | p :: rest, sym => if p.symbol == sym then rest else p :: removePos rest sym

/-- Update of the found position row (`tx.position.update` by id): rewrites
qty and avgPrice of the first row with the given symbol. -/
def updatePos : List Position → String → ℚ → ℚ → List Position
  | [], _, _, _ => []
  | p :: rest, sym, q, a =>
    if p.symbol == sym then { p with qty := q, avgPrice := a } :: rest
    else p :: updatePos rest sym q a

/-- Position handling and trade-record append for one instruction inside the
transaction of `executeTradeInputs` (portfolioService.ts lines 167-202):
find the position, apply the trade, create/delete/update the row, append the
immutable trade record.  The cash balance is untouched here. -/
def applyPositionAndRecord (s1 : PortfolioState) (t : TradeInput) :
    Except String PortfolioState :=
  match applyTrade (findPos s1.positions t.symbol) t with
  | Except.error m => Except.error m
  | Except.ok upd =>
    match findPos s1.positions t.symbol with
    | none =>
      if t.side = TradeSide.SELL then
        Except.error "Cannot sell a position that does not exist"
      else
        Except.ok { s1 with
          positions := s1.positions ++ [⟨t.symbol, upd.qty, upd.avgPrice⟩],
          trades := s1.trades ++ [⟨t.symbol, t.side, t.qty, t.price⟩] }
    | some _ =>
      Except.ok { s1 with
        positions :=
          if upd.qty = 0 then removePos s1.positions t.symbol
          else updatePos s1.positions t.symbol upd.qty upd.avgPrice,
        trades := s1.trades ++ [⟨t.symbol, t.side, t.qty, t.price⟩] }

/-- Embedding of `executeTradeInputs` (portfolioService.ts lines 127-205):
apply an ordered batch of instructions to one portfolio inside a single
transaction.  An `Except.error` models the thrown error that rolls the entire
transaction back (see `runBatch`). -/
def executeTradeInputs : List TradeInput → PortfolioState → Except String PortfolioState
  | [], s => Except.ok s
  | t :: rest, s =>
    if t.side = TradeSide.BUY then
      if s.cash < t.qty * t.price then
        Except.error "Insufficient cash balance for this trade"
      else
        match applyPositionAndRecord { s with cash := s.cash - t.qty * t.price } t with
        | Except.error m => Except.error m
        | Except.ok s2 => executeTradeInputs rest s2
    else
      match applyPositionAndRecord { s with cash := s.cash + t.qty * t.price } t with
      | Except.error m => Except.error m
      | Except.ok s2 => executeTradeInputs rest s2

/-- Transactional semantics of `prisma.$transaction` around
`executeTradeInputs`: on a thrown error the whole batch is rolled back and
the stored state is unchanged. -/
def runBatch (trades : List TradeInput) (s : PortfolioState) : PortfolioState :=
  match executeTradeInputs trades s with
  | Except.ok s2 => s2
  | Except.error _ => s

theorem applyPositionAndRecord_cash {s1 s2 : PortfolioState} {t : TradeInput}
    (h : applyPositionAndRecord s1 t = Except.ok s2) : s2.cash = s1.cash := by
  unfold applyPositionAndRecord at h
  split at h
  · cases h
  · split at h
    · split at h
      · cases h
      · cases h; rfl
    · cases h; rfl

theorem executeTradeInputs_cons_buy {s : PortfolioState} {t : TradeInput}
    {rest : List TradeInput} (hb : t.side = TradeSide.BUY)
    (hc : ¬ s.cash < t.qty * t.price) :
    executeTradeInputs (t :: rest) s =
      match applyPositionAndRecord { s with cash := s.cash - t.qty * t.price } t with
      | Except.error m => Except.error m
      | Except.ok s2 => executeTradeInputs rest s2 := by
  conv_lhs => rw [executeTradeInputs]
  rw [if_pos hb, if_neg hc]

theorem executeTradeInputs_cons_sell {s : PortfolioState} {t : TradeInput}
    {rest : List TradeInput} (hb : t.side ≠ TradeSide.BUY) :
    executeTradeInputs (t :: rest) s =
      match applyPositionAndRecord { s with cash := s.cash + t.qty * t.price } t with
      | Except.error m => Except.error m
      | Except.ok s2 => executeTradeInputs rest s2 := by
  conv_lhs => rw [executeTradeInputs]
  rw [if_neg hb]

theorem executeTradeInputs_cash_nonneg :
    ∀ (trades : List TradeInput) (s s' : PortfolioState),
      executeTradeInputs trades s = Except.ok s' → 0 ≤ s.cash →
      (∀ u ∈ trades, u.side = TradeSide.SELL → 0 ≤ u.qty * u.price) →
      0 ≤ s'.cash := by
  intro trades
  induction trades with
  | nil =>
    intro s s' h h0 _
    unfold executeTradeInputs at h
    cases h
    exact h0
  | cons t rest ih =>
    intro s s' h h0 hsell
    by_cases hb : t.side = TradeSide.BUY
    · by_cases hc : s.cash < t.qty * t.price
      · unfold executeTradeInputs at h
        rw [if_pos hb, if_pos hc] at h
        cases h
      · rw [executeTradeInputs_cons_buy hb hc] at h
        cases hpr : applyPositionAndRecord { s with cash := s.cash - t.qty * t.price } t with
        | error m => rw [hpr] at h; cases h
        | ok s2 =>
          rw [hpr] at h
          have hcash2 : s2.cash = s.cash - t.qty * t.price :=
            applyPositionAndRecord_cash hpr
          have h2 : 0 ≤ s2.cash := by
            rw [hcash2]
            have := not_lt.mp hc
            linarith
          exact ih s2 s' h h2 (fun u hu => hsell u (List.mem_cons_of_mem t hu))
    · rw [executeTradeInputs_cons_sell hb] at h
      cases hpr : applyPositionAndRecord { s with cash := s.cash + t.qty * t.price } t with
      | error m => rw [hpr] at h; cases h
      | ok s2 =>
        rw [hpr] at h
        have hcash2 : s2.cash = s.cash + t.qty * t.price :=
          applyPositionAndRecord_cash hpr
        have hside : t.side = TradeSide.SELL := by
          cases hs : t.side
          · exact absurd hs hb
          · rfl
        have hnat : 0 ≤ t.qty * t.price := hsell t (List.mem_cons_self t rest) hside
        have h2 : 0 ≤ s2.cash := by rw [hcash2]; linarith
        exact ih s2 s' h h2 (fun u hu => hsell u (List.mem_cons_of_mem t hu))

/-- C2: a BUY whose notional (quantity × price, exact decimal arithmetic)
exceeds the current cash balance is rejected with the insufficient-cash
error; the entire batch aborts with cash, positions and trade ledger all
unchanged (transaction rollback, `runBatch`); and any batch that does commit
leaves a non-negative cash balance whenever every SELL credits a
non-negative notional (so no BUY ever drives cash negative). -/
theorem C2_buy_insufficient_cash_rejected
    (s : PortfolioState) (t : TradeInput) (rest : List TradeInput)
    (h1 : t.side = TradeSide.BUY) (h2 : s.cash < t.qty * t.price) :
    executeTradeInputs (t :: rest) s = Except.error "Insufficient cash balance for this trade"
    ∧ runBatch (t :: rest) s = s
    ∧ (∀ (trades : List TradeInput) (s' : PortfolioState),
        executeTradeInputs trades s = Except.ok s' → 0 ≤ s.cash →
        (∀ u ∈ trades, u.side = TradeSide.SELL → 0 ≤ u.qty * u.price) →
        0 ≤ s'.cash) := by
  have herr : executeTradeInputs (t :: rest) s =
      Except.error "Insufficient cash balance for this trade" := by
    unfold executeTradeInputs
    rw [if_pos h1, if_pos h2]
  refine ⟨herr, ?_, ?_⟩
  · unfold runBatch
    rw [herr]
  · intro trades s' h h0 hsell
    exact executeTradeInputs_cash_nonneg trades s s' h h0 hsell

unseal Rat.add Rat.mul Rat.sub Rat.inv in
/-- Witness for C2 at a concrete input: a 1-share BUY at 100 against a cash
balance of 50 is rejected and rolls back; a committing batch keeps cash
non-negative. -/
theorem C2_buy_insufficient_cash_rejected_witness :
    executeTradeInputs [⟨"AAPL", TradeSide.BUY, 1, 100⟩] ⟨50, [], []⟩
        = Except.error "Insufficient cash balance for this trade"
    ∧ runBatch [⟨"AAPL", TradeSide.BUY, 1, 100⟩] ⟨50, [], []⟩ = ⟨50, [], []⟩
    ∧ (0 : ℚ) ≤ (40 : ℚ) := by
  have h := C2_buy_insufficient_cash_rejected ⟨50, [], []⟩
      ⟨"AAPL", TradeSide.BUY, 1, 100⟩ [] rfl (by norm_num)
  refine ⟨h.1, h.2.1, ?_⟩
  have h3 := h.2.2 [⟨"AAPL", TradeSide.BUY, 1, 10⟩]
      ⟨40, [⟨"AAPL", 1, 10⟩], [⟨"AAPL", TradeSide.BUY, 1, 10⟩]⟩ rfl (by norm_num)
      (by intro u hu hs; simp at hu; rw [hu] at hs; cases hs)
  exact h3

/-- C5: BUY on a nonexistent position creates it at quantity = trade
quantity and average price = trade price; BUY on an existing position yields
quantity oldQty+newQty and average price
(oldQty·oldAvg + newQty·price)/(oldQty+newQty) in exact arithmetic. -/
theorem C5_buy_weighted_average
    (t : TradeInput) (pos : Position) (h1 : t.side = TradeSide.BUY) :
    applyTrade none t = Except.ok ⟨t.qty, t.price⟩
    ∧ (pos.qty + t.qty ≠ 0 →
        applyTrade (some pos) t =
          Except.ok ⟨pos.qty + t.qty,
            (pos.qty * pos.avgPrice + t.qty * t.price) / (pos.qty + t.qty)⟩) := by
  constructor
  · have hne : t.side ≠ TradeSide.SELL := by rw [h1]; intro hc; cases hc
    simp only [applyTrade]
    rw [if_neg hne]
  · intro hq
    simp only [applyTrade]
    rw [if_pos h1, if_neg hq]
    have harith : pos.avgPrice * pos.qty + t.price * t.qty
        = pos.qty * pos.avgPrice + t.qty * t.price := by ring
    rw [harith]

unseal Rat.add Rat.mul Rat.sub Rat.inv in
/-- Witness for C5: BUY 10@100 on an empty position gives (10, 100); a
further BUY 5@110 gives qty 15 and average price 1550/15. -/
theorem C5_buy_weighted_average_witness :
    applyTrade none ⟨"AAPL", TradeSide.BUY, 10, 100⟩ = Except.ok ⟨10, 100⟩
    ∧ applyTrade (some ⟨"AAPL", 10, 100⟩) ⟨"AAPL", TradeSide.BUY, 5, 110⟩
        = Except.ok ⟨15, (10 * 100 + 5 * 110) / (10 + 5)⟩
    ∧ ((10 : ℚ) * 100 + 5 * 110) / (10 + 5) = 1550 / 15 := by
  refine ⟨?_, ?_, by norm_num⟩
  · exact (C5_buy_weighted_average ⟨"AAPL", TradeSide.BUY, 10, 100⟩
      ⟨"AAPL", 10, 100⟩ rfl).1
  · exact (C5_buy_weighted_average ⟨"AAPL", TradeSide.BUY, 5, 110⟩
      ⟨"AAPL", 10, 100⟩ rfl).2 (by norm_num)

/-- C6: a SELL of at most the held quantity keeps the average price
unchanged; a SELL of exactly the held quantity deletes the position row (no
row at quantity zero remains). -/
theorem C6_sell_keeps_avg_or_deletes
    (c : ℚ) (tr : List TradeRec) (sym : String) (q0 a0 q1 p1 : ℚ) :
    (q1 < q0 →
      executeTradeInputs [⟨sym, TradeSide.SELL, q1, p1⟩] ⟨c, [⟨sym, q0, a0⟩], tr⟩
        = Except.ok ⟨c + q1 * p1, [⟨sym, q0 - q1, a0⟩],
            tr ++ [⟨sym, TradeSide.SELL, q1, p1⟩]⟩)
    ∧ (executeTradeInputs [⟨sym, TradeSide.SELL, q0, p1⟩] ⟨c, [⟨sym, q0, a0⟩], tr⟩
        = Except.ok ⟨c + q0 * p1, [], tr ++ [⟨sym, TradeSide.SELL, q0, p1⟩]⟩
       ∧ findPos ([] : List Position) sym = none) := by
  have hfind : findPos [(⟨sym, q0, a0⟩ : Position)] sym = some ⟨sym, q0, a0⟩ := by
    simp [findPos, List.find?]
  constructor
  · intro hlt
    have hnotlt : ¬ (q0 < q1) := not_lt.mpr hlt.le
    have hne : q0 - q1 ≠ 0 := sub_ne_zero.mpr (ne_of_gt hlt)
    rw [executeTradeInputs_cons_sell
      (show (⟨sym, TradeSide.SELL, q1, p1⟩ : TradeInput).side ≠ TradeSide.BUY by simp)]
    show (match applyPositionAndRecord ⟨c + q1 * p1, [⟨sym, q0, a0⟩], tr⟩
          ⟨sym, TradeSide.SELL, q1, p1⟩ with
        | Except.error m => Except.error m
        | Except.ok s2 => executeTradeInputs [] s2) = _
    have happ : applyPositionAndRecord ⟨c + q1 * p1, [⟨sym, q0, a0⟩], tr⟩
        ⟨sym, TradeSide.SELL, q1, p1⟩
        = Except.ok ⟨c + q1 * p1, [⟨sym, q0 - q1, a0⟩],
            tr ++ [⟨sym, TradeSide.SELL, q1, p1⟩]⟩ := by
      simp only [applyPositionAndRecord]
      rw [hfind]
      simp [applyTrade, hnotlt, hne, updatePos]
    rw [happ]
    rfl
  · constructor
    · rw [executeTradeInputs_cons_sell
        (show (⟨sym, TradeSide.SELL, q0, p1⟩ : TradeInput).side ≠ TradeSide.BUY by simp)]
      show (match applyPositionAndRecord ⟨c + q0 * p1, [⟨sym, q0, a0⟩], tr⟩
            ⟨sym, TradeSide.SELL, q0, p1⟩ with
          | Except.error m => Except.error m
          | Except.ok s2 => executeTradeInputs [] s2) = _
      have happ : applyPositionAndRecord ⟨c + q0 * p1, [⟨sym, q0, a0⟩], tr⟩
          ⟨sym, TradeSide.SELL, q0, p1⟩
          = Except.ok ⟨c + q0 * p1, [],
              tr ++ [⟨sym, TradeSide.SELL, q0, p1⟩]⟩ := by
        simp only [applyPositionAndRecord]
        rw [hfind]
        simp [applyTrade, lt_irrefl, sub_self, removePos]
      rw [happ]
      rfl
    · rfl

unseal Rat.add Rat.mul Rat.sub Rat.inv in
/-- Witness for C6: BUY 10@120 then SELL 4@130 yields qty 6 with average
price 120 unchanged; SELL of the full 10 deletes the row. -/
theorem C6_sell_keeps_avg_or_deletes_witness :
    executeTradeInputs [⟨"AAPL", TradeSide.SELL, 4, 130⟩]
        ⟨8800, [⟨"AAPL", 10, 120⟩], []⟩
      = Except.ok ⟨8800 + 4 * 130, [⟨"AAPL", 6, 120⟩],
          [⟨"AAPL", TradeSide.SELL, 4, 130⟩]⟩
    ∧ executeTradeInputs [⟨"AAPL", TradeSide.SELL, 10, 130⟩]
        ⟨8800, [⟨"AAPL", 10, 120⟩], []⟩
      = Except.ok ⟨8800 + 10 * 130, [], [⟨"AAPL", TradeSide.SELL, 10, 130⟩]⟩
    ∧ runBatch [⟨"AAPL", TradeSide.BUY, 10, 120⟩, ⟨"AAPL", TradeSide.SELL, 4, 130⟩]
        ⟨10000, [], []⟩
      = ⟨9320, [⟨"AAPL", 6, 120⟩],
          [⟨"AAPL", TradeSide.BUY, 10, 120⟩, ⟨"AAPL", TradeSide.SELL, 4, 130⟩]⟩ := by
  have h1 := (C6_sell_keeps_avg_or_deletes 8800 [] "AAPL" 10 120 4 130).1 (by norm_num)
  have h2 := (C6_sell_keeps_avg_or_deletes 8800 [] "AAPL" 10 120 10 130).2.1
  have hq : (10 : ℚ) - 4 = 6 := by norm_num
  refine ⟨?_, ?_, ?_⟩
  · rw [h1, hq]; rfl
  · exact h2
  · rfl

/-- C7: a SELL whose quantity strictly exceeds the held quantity of an
existing position aborts the batch with the oversell error; a SELL on a
symbol with no position aborts with the missing-position error; in both
cases the transaction rolls back and the state is unchanged. -/
theorem C7_oversell_and_missing_position_rejected
    (s : PortfolioState) (t : TradeInput) (rest : List TradeInput)
    (h0 : t.side = TradeSide.SELL) :
    (∀ p : Position, findPos s.positions t.symbol = some p → p.qty < t.qty →
      executeTradeInputs (t :: rest) s
          = Except.error "Cannot sell more shares than currently held"
        ∧ runBatch (t :: rest) s = s)
    ∧ (findPos s.positions t.symbol = none →
      executeTradeInputs (t :: rest) s
          = Except.error "Cannot sell a position that does not exist"
        ∧ runBatch (t :: rest) s = s) := by
  have hnb : t.side ≠ TradeSide.BUY := by rw [h0]; intro hc; cases hc
  constructor
  · intro p hfind hlt
    have herr : executeTradeInputs (t :: rest) s
        = Except.error "Cannot sell more shares than currently held" := by
      rw [executeTradeInputs_cons_sell hnb]
      have happ : applyPositionAndRecord { s with cash := s.cash + t.qty * t.price } t
          = Except.error "Cannot sell more shares than currently held" := by
        have hfind1 : findPos ({ s with cash := s.cash + t.qty * t.price } :
            PortfolioState).positions t.symbol = some p := hfind
        simp only [applyPositionAndRecord]
        rw [hfind1]
        simp only [applyTrade]
        rw [if_neg hnb, if_pos hlt]
      rw [happ]
    exact ⟨herr, by unfold runBatch; rw [herr]⟩
  · intro hfind
    have herr : executeTradeInputs (t :: rest) s
        = Except.error "Cannot sell a position that does not exist" := by
      rw [executeTradeInputs_cons_sell hnb]
      have happ : applyPositionAndRecord { s with cash := s.cash + t.qty * t.price } t
          = Except.error "Cannot sell a position that does not exist" := by
        have hfind1 : findPos ({ s with cash := s.cash + t.qty * t.price } :
            PortfolioState).positions t.symbol = none := hfind
        simp only [applyPositionAndRecord]
        rw [hfind1]
        simp only [applyTrade]
        rw [if_pos h0]
      rw [happ]
    exact ⟨herr, by unfold runBatch; rw [herr]⟩

/-- Witness for C7: selling 3 shares while holding 2 is rejected and the
state is unchanged; selling a symbol with no position is rejected and the
state is unchanged. -/
theorem C7_oversell_and_missing_position_rejected_witness :
    executeTradeInputs [⟨"AAPL", TradeSide.SELL, 3, 60⟩]
        ⟨1000, [⟨"AAPL", 2, 50⟩], []⟩
      = Except.error "Cannot sell more shares than currently held"
    ∧ runBatch [⟨"AAPL", TradeSide.SELL, 3, 60⟩] ⟨1000, [⟨"AAPL", 2, 50⟩], []⟩
      = ⟨1000, [⟨"AAPL", 2, 50⟩], []⟩
    ∧ executeTradeInputs [⟨"MSFT", TradeSide.SELL, 1, 60⟩] ⟨1000, [], []⟩
      = Except.error "Cannot sell a position that does not exist"
    ∧ runBatch [⟨"MSFT", TradeSide.SELL, 1, 60⟩] ⟨1000, [], []⟩ = ⟨1000, [], []⟩ := by
  have h1 := (C7_oversell_and_missing_position_rejected
      ⟨1000, [⟨"AAPL", 2, 50⟩], []⟩ ⟨"AAPL", TradeSide.SELL, 3, 60⟩ [] rfl).1
      ⟨"AAPL", 2, 50⟩ rfl (by norm_num)
  have h2 := (C7_oversell_and_missing_position_rejected
      ⟨1000, [], []⟩ ⟨"MSFT", TradeSide.SELL, 1, 60⟩ [] rfl).2 rfl
  exact ⟨h1.1, h1.2, h2.1, h2.2⟩

/-- Character predicate for the whitespace class removed by the JavaScript
`String.prototype.trim` used in `normalizeBase` (ASCII part). -/
def isJsSpace (c : Char) : Bool :=
  c == ' ' || c == '\t' || c == '\n' || c == '\r' || c == '\x0b' || c == '\x0c'

/-- Trim of leading and trailing whitespace, `apiBase.trim()`. -/
def trimChars (s : List Char) : List Char :=
  ((s.dropWhile isJsSpace).reverse.dropWhile isJsSpace).reverse

/-- Removal of all trailing slashes, the `replace(/\/+$/, "")` of
providerUtils.ts `normalizeBase`. -/
def stripTrailingSlashes (s : List Char) : List Char :=
  (s.reverse.dropWhile (fun c => c == '/')).reverse

/-- Embedding of `normalizeBase` (providerUtils.ts lines 1-3): trim then
strip trailing slashes. -/
def normalizeBase (s : String) : List Char :=
  stripTrailingSlashes (trimChars s.data)

def startsWithList : List Char → List Char → Bool
  | _, [] => true
  | [], _ :: _ => false
  | c :: cs, d :: ds => c == d && startsWithList cs ds

def endsWithList (s pat : List Char) : Bool :=
  startsWithList s.reverse pat.reverse

/-- Embedding of `endsWithChatCompletions` (providerUtils.ts lines 9-11),
the case-insensitive test for the regular expression `/\/chat\/completions$/i`. -/
def endsWithChatCompletions (s : List Char) : Bool :=
  endsWithList (s.map Char.toLower) "/chat/completions".data

/-- Embedding of `endsWithVersionSegment` (providerUtils.ts lines 5-7), the
test for `/\/v\d[^/]*$/i`: the last `/`-separated segment starts with `v` or
`V` followed by a digit. -/
def endsWithVersionSegment (s : List Char) : Bool :=
  s.contains '/' &&
    (match (s.reverse.takeWhile (fun c => c != '/')).reverse with
     | c :: d :: _ => (c == 'v' || c == 'V') && d.isDigit
     | _ => false)

/-- Removal of the final version segment together with its leading slash,
the `replace(/\/v\d[^/]*$/i, "")` of `buildChatCompletionsUrlWithoutVersion`. -/
def dropLastSegment (s : List Char) : List Char :=
  ((s.reverse.dropWhile (fun c => c != '/')).reverse).dropLast

/-- Embedding of `buildChatCompletionsUrl` (providerUtils.ts lines 13-25). -/
def buildChatCompletionsUrl (apiBase : String) : String :=
  let normalized := normalizeBase apiBase
  if endsWithChatCompletions normalized then String.mk normalized
  else if endsWithVersionSegment normalized then
    String.mk normalized ++ "/chat/completions"
  else String.mk normalized ++ "/v1/chat/completions"

/-- Embedding of `buildChatCompletionsUrlWithoutVersion`
(providerUtils.ts lines 27-38). -/
def buildChatCompletionsUrlWithoutVersion (apiBase : String) : String :=
  let normalized := normalizeBase apiBase
  if endsWithChatCompletions normalized then String.mk normalized
  else
    let withoutVersion :=
      if endsWithVersionSegment normalized then dropLastSegment normalized
      else normalized
    let base :=
      if withoutVersion.isEmpty then normalized
      else stripTrailingSlashes (trimChars withoutVersion)
    String.mk base ++ "/chat/completions"

/-- Relevant fields of one HTTP response as consumed by
`callOpenAiCompatibleProvider`: `ok`, `status`, the body text, the parsed
body's optional `error.message` and the first choice's assistant content
(`none` for a missing or null content, `some ""` for an empty string; both
are falsy in the source). -/
structure FetchResponse where
  ok : Bool
  status : Nat
  bodyText : String
  errorMessage : Option String
  content : Option String
deriving Repr

/-- Embedding of `callOpenAiCompatibleProvider` (llmService.ts lines
305-361).  `fetch` is the response oracle for the n-th fetch call;
`hasResponseFormat` states whether `payload.response_format` was present.
The second component records the requests actually issued, as pairs of the
target URL and whether the body carried `response_format`. -/
def callOpenAiCompatibleProvider (apiBase : String) (hasResponseFormat : Bool)
    (fetch : Nat → FetchResponse) :
    Except String String × List (String × Bool) :=
  let requestUrl := buildChatCompletionsUrl apiBase
  let r1 := fetch 0
  let resp := if !r1.ok && hasResponseFormat then fetch 1 else r1
  let requests :=
    if !r1.ok && hasResponseFormat then [(requestUrl, true), (requestUrl, false)]
    else [(requestUrl, hasResponseFormat)]
  if !resp.ok then
    (Except.error ("LLM provider request failed (" ++ toString resp.status ++ "): "
        ++ resp.bodyText), requests)
  else
    match resp.errorMessage with
    | some m => (Except.error ("LLM provider error: " ++ m), requests)
    | none =>
      match resp.content with
      | some c =>
        if c == "" then (Except.error "LLM provider returned no content", requests)
        else (Except.ok c, requests)
      | none => (Except.error "LLM provider returned no content", requests)

/-- Fetch oracle for C4: first call answers HTTP 404 with body text
`not found`, every later call would answer 200 with content. -/
def c4Fetch404 : Nat → FetchResponse := fun n =>
  if n = 0 then ⟨false, 404, "not found", none, none⟩
  else ⟨true, 200, "", none, some "ok"⟩

/-- Fetch oracle answering HTTP 500 on every call. -/
def c4Fetch500 : Nat → FetchResponse := fun _ => ⟨false, 500, "boom", none, none⟩

/-- C4: evaluation of the adapter at the failing input of the repository's
own test (404 on a payload without a response-format hint).  The code issues
exactly one request and throws the request-failed error: the 404 fallback to
the version-stripped URL required by the claim (and asserted by
providerUtils.test.ts) never happens, although
`buildChatCompletionsUrlWithoutVersion` computes exactly that URL.  The
response-format fallback that does exist re-posts to the same URL and fires
on any non-2xx status, not specifically on 404. -/
theorem C4_no_version_stripped_retry_on_404 :
    callOpenAiCompatibleProvider "https://api.perplexity.ai" false c4Fetch404
      = (Except.error "LLM provider request failed (404): not found",
         [("https://api.perplexity.ai/v1/chat/completions", false)])
    ∧ buildChatCompletionsUrlWithoutVersion "https://api.perplexity.ai"
      = "https://api.perplexity.ai/chat/completions"
    ∧ (callOpenAiCompatibleProvider "https://example.com/v1" true c4Fetch500).2
      = [("https://example.com/v1/chat/completions", true),
         ("https://example.com/v1/chat/completions", false)] :=
  ⟨rfl, rfl, rfl⟩

/-- JSON values as produced by `JSON.parse`; numbers are exact `ℚ`. -/
inductive Json where
  | null
  | bool (b : Bool)
  | num (q : ℚ)
  | str (s : String)
  | arr (elems : List Json)
  | obj (fields : List (String × Json))

def jsonDquote : Char := Char.ofNat 34

def jsonLBrace : Char := Char.ofNat 123

def jsonRBrace : Char := Char.ofNat 125

/-- Whitespace accepted between JSON tokens by `JSON.parse`. -/
def isJsonWs (c : Char) : Bool := c == ' ' || c == '\t' || c == '\n' || c == '\r'

def skipWs (cs : List Char) : List Char := cs.dropWhile isJsonWs

def hexVal (c : Char) : Option Nat :=
  if c.isDigit then some (c.toNat - 48)
  else if 97 ≤ c.toNat && c.toNat ≤ 102 then some (c.toNat - 87)
  else if 65 ≤ c.toNat && c.toNat ≤ 70 then some (c.toNat - 55)
  else none

/-- Body of a JSON string literal after the opening quote: ordinary
characters, the escape sequences of the JSON grammar, and a closing quote.
Raw control characters are rejected as `JSON.parse` does. -/
def parseStrAux : Nat → List Char → List Char → Option (String × List Char)
  | 0, _, _ => none
  | fuel + 1, acc, cs =>
    match cs with
    | [] => none
    | c :: rest =>
      if c == jsonDquote then some (String.mk acc.reverse, rest)
      else if c == '\\' then
        match rest with
        | [] => none
        | e :: rest2 =>
          if e == jsonDquote then parseStrAux fuel (jsonDquote :: acc) rest2
          else if e == '\\' then parseStrAux fuel ('\\' :: acc) rest2
          else if e == '/' then parseStrAux fuel ('/' :: acc) rest2
          else if e == 'n' then parseStrAux fuel ('\n' :: acc) rest2
          else if e == 't' then parseStrAux fuel ('\t' :: acc) rest2
          else if e == 'r' then parseStrAux fuel ('\r' :: acc) rest2
          else if e == 'b' then parseStrAux fuel ('\x08' :: acc) rest2
          else if e == 'f' then parseStrAux fuel ('\x0c' :: acc) rest2
          else if e == 'u' then
            match rest2 with
            | h1 :: h2 :: h3 :: h4 :: rest3 =>
              match hexVal h1, hexVal h2, hexVal h3, hexVal h4 with
              | some a, some b, some c2, some d =>
                parseStrAux fuel (Char.ofNat (((a * 16 + b) * 16 + c2) * 16 + d) :: acc) rest3
              | _, _, _, _ => none
            | _ => none
          else none
      else if c.toNat < 32 then none
      else parseStrAux fuel (c :: acc) rest

def digitsToNat (ds : List Char) : Nat :=
  ds.foldl (fun acc c => acc * 10 + (c.toNat - 48)) 0

/-- Optional fraction part of a JSON number; yields its value in `[0, 1)`. -/
def parseFrac (cs : List Char) : Option (ℚ × List Char) :=
  match cs with
  | c :: rest =>
    if c == '.' then
      let fds := rest.takeWhile Char.isDigit
      if fds.isEmpty then none
      else some ((digitsToNat fds : ℚ) / ((10 : ℚ) ^ fds.length),
        rest.dropWhile Char.isDigit)
    else some (0, cs)
  | [] => some (0, cs)

/-- Optional exponent part of a JSON number. -/
def parseExp (cs : List Char) : Option (Int × List Char) :=
  match cs with
  | c :: rest =>
    if c == 'e' || c == 'E' then
      let (sgn, rest2) : Int × List Char :=
        match rest with
        | d :: r2 => if d == '+' then (1, r2) else if d == '-' then (-1, r2) else (1, rest)
        | [] => (1, rest)
      let eds := rest2.takeWhile Char.isDigit
      if eds.isEmpty then none
      else some (sgn * (digitsToNat eds : Int), rest2.dropWhile Char.isDigit)
    else some (0, cs)
  | [] => some (0, cs)

def applyExp (q : ℚ) (e : Int) : ℚ :=
  if 0 ≤ e then q * (10 : ℚ) ^ e.toNat else q / (10 : ℚ) ^ (-e).toNat

/-- JSON number grammar: optional minus, integer part without leading zeros,
optional fraction, optional exponent. -/
def parseNumber (cs : List Char) : Option (ℚ × List Char) :=
  let (neg, cs1) :=
    match cs with
    | c :: rest => if c == '-' then (true, rest) else (false, cs)
    | [] => (false, cs)
  let intDs := cs1.takeWhile Char.isDigit
  if intDs.isEmpty then none
  else if intDs.length > 1 && intDs.headD '0' == '0' then none
  else
    match parseFrac (cs1.dropWhile Char.isDigit) with
    | none => none
    | some (fracVal, cs3) =>
      match parseExp cs3 with
      | none => none
      | some (e, cs4) =>
        some (applyExp (if neg then -((digitsToNat intDs : ℚ) + fracVal)
            else (digitsToNat intDs : ℚ) + fracVal) e, cs4)

def stripLit : List Char → List Char → Option (List Char)
  | [], cs => some cs
  | p :: ps, c :: cs => if c == p then stripLit ps cs else none
  | _ :: _, [] => none

/-- Parser mode: a value, the members of an object after `{` (the flag marks
the position right after `{` where `}` is allowed), or the elements of an
array after `[`. -/
inductive PMode where
  | val
  | members (first : Bool)
  | elems (first : Bool)

/-- Recursive-descent JSON parser with explicit fuel (structural recursion,
so that the kernel can evaluate it).  Mirrors the grammar accepted by
`JSON.parse`: no trailing commas, double-quoted keys, strict number format. -/
def parseJ : Nat → PMode → List Char → Option (Json × List Char)
  | 0, _, _ => none
  | fuel + 1, PMode.val, cs =>
    match skipWs cs with
    | [] => none
    | c :: rest =>
      if c == jsonDquote then
        match parseStrAux (rest.length + 1) [] rest with
        | some (s, r) => some (Json.str s, r)
        | none => none
      else if c == jsonLBrace then parseJ fuel (PMode.members true) (skipWs rest)
      else if c == '[' then parseJ fuel (PMode.elems true) (skipWs rest)
      else if c == 't' then
        match stripLit "rue".data rest with
        | some r => some (Json.bool true, r)
        | none => none
      else if c == 'f' then
        match stripLit "alse".data rest with
        | some r => some (Json.bool false, r)
        | none => none
      else if c == 'n' then
        match stripLit "ull".data rest with
        | some r => some (Json.null, r)
        | none => none
      else
        match parseNumber (c :: rest) with
        | some (q, r) => some (Json.num q, r)
        | none => none
  | fuel + 1, PMode.members first, cs =>
    match cs with
    | [] => none
    | c :: rest =>
      if first && c == jsonRBrace then some (Json.obj [], rest)
      else if c == jsonDquote then
        match parseStrAux (rest.length + 1) [] rest with
        | none => none
        | some (k, r1) =>
          match skipWs r1 with
          | [] => none
          | c2 :: r2 =>
            if c2 == ':' then
              match parseJ fuel PMode.val r2 with
              | none => none
              | some (v, r3) =>
                match skipWs r3 with
                | [] => none
                | c3 :: r4 =>
                  if c3 == ',' then
                    match parseJ fuel (PMode.members false) (skipWs r4) with
                    | some (Json.obj fields, r5) => some (Json.obj ((k, v) :: fields), r5)
                    | _ => none
                  else if c3 == jsonRBrace then some (Json.obj [(k, v)], r4)
                  else none
            else none
      else none
  | fuel + 1, PMode.elems first, cs =>
    match cs with
    | [] => none
    | c :: _ =>
      if first && c == ']' then some (Json.arr [], cs.tail)
      else
        match parseJ fuel PMode.val cs with
        | none => none
        | some (v, r1) =>
          match skipWs r1 with
          | [] => none
          | c2 :: r2 =>
            if c2 == ',' then
              match parseJ fuel (PMode.elems false) (skipWs r2) with
              | some (Json.arr xs, r3) => some (Json.arr (v :: xs), r3)
              | _ => none
            else if c2 == ']' then some (Json.arr [v], r2)
            else none

/-- Embedding of `JSON.parse` as used by `extractJson` and
`parseArbitragePlan`: parse one JSON value, allowing surrounding
whitespace only. -/
def parseJson (s : String) : Option Json :=
  match parseJ (2 * s.data.length + 2) PMode.val s.data with
  | some (j, rest) => if (skipWs rest).isEmpty then some j else none
  | none => none

/-- Trim as performed by the JavaScript `String.prototype.trim`. -/
def trimS (s : String) : String := String.mk (trimChars s.data)

def backtickChar : Char := Char.ofNat 96

def ticks3 : List Char := [backtickChar, backtickChar, backtickChar]

def matchCI : List Char → List Char → Option (List Char)
  | [], cs => some cs
  | p :: ps, c :: cs => if c.toLower == p then matchCI ps cs else none
  | _ :: _, [] => none

/-- One match attempt of the fence regular expression
(three backticks, `jso`, optional `n`, trailing whitespace — or plain three
backticks), case-insensitively, at the current position; yields the
remaining input after the match. -/
def fenceMatch (cs : List Char) : Option (List Char) :=
  match matchCI (ticks3 ++ "jso".data) cs with
  | some rest =>
    some ((match rest with
           | c :: cs2 => if c.toLower == 'n' then cs2 else rest
           | [] => rest).dropWhile isJsSpace)
  | none => matchCI ticks3 cs

/-- Global replacement of all fence matches by the empty string, the
`content.replace` call of `extractJson` (llmService.ts line 544). -/
def fenceScan : Nat → List Char → List Char
  | 0, cs => cs
  | _ + 1, [] => []
  | fuel + 1, c :: cs =>
    match fenceMatch (c :: cs) with
    | some rest => fenceScan fuel rest
    | none => c :: fenceScan fuel cs

def stripFences (s : String) : String := String.mk (fenceScan s.data.length s.data)

def idxFrom (cs : List Char) (d : Char) (i : Nat) : Option Nat :=
  match cs with
  | [] => none
  | c :: rest => if c == d then some i else idxFrom rest d (i + 1)

def lastIdxFrom (cs : List Char) (d : Char) (i : Nat) (acc : Option Nat) : Option Nat :=
  match cs with
  | [] => acc
  | c :: rest => lastIdxFrom rest d (i + 1) (if c == d then some i else acc)

/-- The first-brace-to-last-brace substring attempt of `extractJson`
(llmService.ts lines 552-556): `indexOf`, `lastIndexOf` and `slice`,
defined when both braces exist and the closing one comes strictly later. -/
def braceSlice (s : String) : Option String :=
  match idxFrom s.data jsonLBrace 0, lastIdxFrom s.data jsonRBrace 0 none with
  | some st, some en =>
    if st < en then some (String.mk ((s.data.drop st).take (en + 1 - st))) else none
  | _, _ => none

/-- The two distinct failure modes observable from `extractJson`: a
`SyntaxError` thrown by the uncaught `JSON.parse(candidate)` call, and the
explicit `Error` with the unable-to-extract message. -/
inductive ExtractErr where
  | syntaxError
  | extractionError
deriving DecidableEq, Repr

/-- Embedding of `extractJson` (llmService.ts lines 542-562): a fenced input
is fence-stripped and trimmed and returned with no parse check; otherwise
the whole text is tried as JSON; otherwise the brace substring is tried,
raising a SyntaxError if it does not parse; otherwise the extraction error
is raised. -/
def extractJson (content : String) : Except ExtractErr String :=
  if startsWithList content.data ticks3 then
    Except.ok (trimS (stripFences content))
  else if (parseJson content).isSome then Except.ok content
  else
    match braceSlice content with
    | some candidate =>
      if (parseJson candidate).isSome then Except.ok candidate
      else Except.error ExtractErr.syntaxError
    | none => Except.error ExtractErr.extractionError

/-- Order type of a plan order, `z.enum(["market", "limit"])` with default
`market`. -/
inductive OrderType where
  | market
  | limit
deriving DecidableEq, Repr

/-- A validated plan order, `ArbitrageOrder` of llmSchema.ts: symbol
upper-cased and non-empty, action BUY or SELL, positive integer quantity,
order type defaulting to market, optional positive limit price, optional
confidence in [0, 1], optional rationale. -/
structure ArbitrageOrder where
  symbol : String
  action : TradeSide
  quantity : Int
  orderType : OrderType
  limitPrice : Option ℚ
  confidence : Option ℚ
  rationale : Option String
deriving DecidableEq, Repr

/-- A validated plan, `ArbitragePlan` of llmSchema.ts. -/
structure ArbitragePlan where
  version : String
  generatedAt : String
  arbitrages : List ArbitrageOrder
deriving DecidableEq, Repr

/-- Lookup of an object field; later duplicate keys win, as in a JavaScript
object literal produced by `JSON.parse`. -/
def jfield (fields : List (String × Json)) (k : String) : Option Json :=
  (fields.reverse.find? (fun p => p.1 == k)).map (fun p => p.2)

def toUpperS (s : String) : String := String.mk (s.data.map Char.toUpper)

/-- Embedding of `arbitrageOrderSchema` (llmSchema.ts): zod validation of
one order object.  `limitPrice` is optional and is not required to be
present for limit orders by the schema itself. -/
def validateOrder (j : Json) : Except String ArbitrageOrder :=
  match j with
  | Json.obj fields =>
    match jfield fields "symbol" with
    | some (Json.str s) =>
      if s.length = 0 then Except.error "symbol is required"
      else
        match jfield fields "action" with
        | some (Json.str a) =>
          if a == "BUY" || a == "SELL" then
            match jfield fields "quantity" with
            | some (Json.num q) =>
              if q.den ≠ 1 then Except.error "quantity must be an integer"
              else if q ≤ 0 then Except.error "quantity must be positive"
              else
                match
                  (match jfield fields "orderType" with
                   | none => Except.ok OrderType.market
                   | some (Json.str t) =>
                     if t == "market" then Except.ok OrderType.market
                     else if t == "limit" then Except.ok OrderType.limit
                     else Except.error "invalid orderType"
                   | some _ => Except.error "invalid orderType") with
                | Except.error m => Except.error m
                | Except.ok ot =>
                  match
                    (match jfield fields "limitPrice" with
                     | none => Except.ok none
                     | some (Json.num p) =>
                       if 0 < p then Except.ok (some p)
                       else Except.error "limitPrice must be positive"
                     | some _ => Except.error "limitPrice must be numeric") with
                  | Except.error m => Except.error m
                  | Except.ok lp =>
                    match
                      (match jfield fields "confidence" with
                       | none => Except.ok none
                       | some (Json.num cf) =>
                         if 0 ≤ cf ∧ cf ≤ 1 then Except.ok (some cf)
                         else Except.error "confidence out of range"
                       | some _ => Except.error "confidence must be numeric") with
                    | Except.error m => Except.error m
                    | Except.ok cf =>
                      match
                        (match jfield fields "rationale" with
                         | none => Except.ok none
                         | some (Json.str r) => Except.ok (some r)
                         | some _ => Except.error "rationale must be a string") with
                      | Except.error m => Except.error m
                      | Except.ok ra =>
                        Except.ok ⟨toUpperS s,
                          if a == "BUY" then TradeSide.BUY else TradeSide.SELL,
                          q.num, ot, lp, cf, ra⟩
            | some _ => Except.error "quantity must be numeric"
            | none => Except.error "quantity must be numeric"
          else Except.error "action must be BUY or SELL"
        | some _ => Except.error "action must be BUY or SELL"
        | none => Except.error "action must be BUY or SELL"
    | some _ => Except.error "symbol is required"
    | none => Except.error "symbol is required"
  | _ => Except.error "order must be an object"

def validateOrders : List Json → Except String (List ArbitrageOrder)
  | [] => Except.ok []
  | x :: xs =>
    match validateOrder x with
    | Except.error m => Except.error m
    | Except.ok o =>
      match validateOrders xs with
      | Except.error m => Except.error m
      | Except.ok os => Except.ok (o :: os)

/-- Embedding of `arbitragePlanSchema` (llmSchema.ts): version must be the
literal "1.0", `generatedAt` must be a string (no format constraint — the
ISO-8601 wording exists only as a `description` in the published JSON
Schema), `arbitrages` an array of at most 25 valid orders. -/
def validateArbitragePlan (j : Json) : Except String ArbitragePlan :=
  match j with
  | Json.obj fields =>
    match jfield fields "version" with
    | some (Json.str v) =>
      if v == "1.0" then
        match jfield fields "generatedAt" with
        | some (Json.str g) =>
          match jfield fields "arbitrages" with
          | some (Json.arr xs) =>
            if xs.length ≤ 25 then
              match validateOrders xs with
              | Except.error m => Except.error m
              | Except.ok orders => Except.ok ⟨v, g, orders⟩
            else Except.error "arbitrages must contain at most 25 orders"
          | some _ => Except.error "arbitrages must be an array"
          | none => Except.error "arbitrages must be an array"
        | some _ => Except.error "generatedAt must be a string"
        | none => Except.error "generatedAt must be a string"
      else Except.error "version must be the literal 1.0"
    | some _ => Except.error "version must be the literal 1.0"
    | none => Except.error "version must be the literal 1.0"
  | _ => Except.error "plan must be an object"

/-- Stand-in message for the engine-defined text of a `SyntaxError` thrown
by `JSON.parse`; the source surfaces the engine message verbatim, which is
not the extraction error below. -/
def syntaxErrorMessage : String := "SyntaxError: invalid JSON"

def extractionErrorMessage : String := "Unable to extract JSON payload from LLM response"

/-- Embedding of `parseArbitragePlan` (llmService.ts lines 531-540): trim,
extract the JSON payload, parse it, validate it against the plan schema. -/
def parseArbitragePlan (content : String) : Except String ArbitragePlan :=
  match extractJson (trimS content) with
  | Except.error ExtractErr.syntaxError => Except.error syntaxErrorMessage
  | Except.error ExtractErr.extractionError => Except.error extractionErrorMessage
  | Except.ok payload =>
    match parseJson payload with
    | none => Except.error syntaxErrorMessage
    | some parsed =>
      match validateArbitragePlan parsed with
      | Except.error m => Except.error ("LLM response failed schema validation: " ++ m)
      | Except.ok plan => Except.ok plan

/-- Quote fields used on the pricing path: `price` and `previousClose` of
the Price Oracle's quote response (absent models null/undefined). -/
structure QuoteR where
  price : Option ℚ
  previousClose : Option ℚ
deriving DecidableEq, Repr

/-- Pricing context for `buildTradesFromPlan`: the quotes map of the
execution context (`context.raw.quotes`) and the live `getQuote` call used
by `deriveMarketPrice` (an oracle; `Except.error` models a thrown fetch
error). -/
structure PricingCtx where
  quotes : String → Option QuoteR
  getQuote : String → Except String QuoteR

/-- Embedding of `deriveMarketPrice` (portfolioService.ts lines 86-95):
quote price, else previous close, else a price-derivation error. -/
def deriveMarketPrice (getQuote : String → Except String QuoteR) (symbol : String) :
    Except String ℚ :=
  match getQuote symbol with
  | Except.error m => Except.error m
  | Except.ok q =>
    match q.price with
    | some p => Except.ok p
    | none =>
      match q.previousClose with
      | some p => Except.ok p
      | none => Except.error "Unable to derive price for trade"

/-- Embedding of `determinePriceForOrder` (llmService.ts lines 589-600): a
limit order with a truthy (nonzero) limit price uses it; otherwise the
context quote's numeric price; otherwise `deriveMarketPrice`. -/
def determinePriceForOrder (ctx : PricingCtx) (order : ArbitrageOrder) :
    Except String ℚ :=
  match order.orderType, order.limitPrice with
  | OrderType.limit, some p =>
    if p ≠ 0 then Except.ok p
    else
      match ctx.quotes order.symbol with
      | some q =>
        match q.price with
        | some mp => Except.ok mp
        | none => deriveMarketPrice ctx.getQuote order.symbol
      | none => deriveMarketPrice ctx.getQuote order.symbol
  | _, _ =>
    match ctx.quotes order.symbol with
    | some q =>
      match q.price with
      | some mp => Except.ok mp
      | none => deriveMarketPrice ctx.getQuote order.symbol
    | none => deriveMarketPrice ctx.getQuote order.symbol

/-- Embedding of `normalizeOrder` (llmService.ts lines 579-587): reject a
non-positive quantity, and reject a limit order with no limit price. -/
def normalizeOrder (o : ArbitrageOrder) : Except String ArbitrageOrder :=
  if o.quantity ≤ 0 then Except.error ("Invalid quantity for " ++ o.symbol)
  else if o.orderType = OrderType.limit ∧ o.limitPrice = none then
    Except.error ("Order for " ++ o.symbol ++ " is limit but has no limitPrice")
  else Except.ok o

/-- Embedding of `buildTradesFromPlan` (llmService.ts lines 564-577),
instrumented with a pricing trace: the second component lists, in order, the
symbols for which `determinePriceForOrder` was invoked (i.e. for which a
quote lookup or price derivation ran) before the result was decided. -/
def buildTradesFromPlan (ctx : PricingCtx) :
    List ArbitrageOrder → Except String (List TradeInput) × List String
  | [] => (Except.ok [], [])
  | o :: rest =>
    match normalizeOrder o with
    | Except.error m => (Except.error m, [])
    | Except.ok o2 =>
      match determinePriceForOrder ctx o2 with
      | Except.error m => (Except.error m, [o2.symbol])
      | Except.ok p =>
        match buildTradesFromPlan ctx rest with
        | (r, tr) =>
          (r.map (fun ts => (⟨o2.symbol, o2.action, (o2.quantity : ℚ), p⟩ : TradeInput) :: ts),
           o2.symbol :: tr)

/-- Retry bound of the plan runner, `MAX_PLAN_ATTEMPTS` (llmService.ts line 37). -/
def MAX_PLAN_ATTEMPTS : Nat := 3

/-- Outcome of one `runLlmPlan` call: a returned result (executed or not,
with the final portfolio state standing in for the returned snapshot), a
thrown `LlmPlanExecutionError` still carrying the plan and the attempted
instructions, or a plain thrown error. -/
inductive RunOutcome where
  | success (executed : Bool) (plan : ArbitragePlan) (trades : List TradeInput)
      (finalState : PortfolioState)
  | execFailed (msg : String) (plan : ArbitragePlan) (trades : List TradeInput)
  | failed (msg : String)
deriving Repr

/-- The body of one attempt of the `runLlmPlan` loop before execution
(llmService.ts lines 158-160): invoke the provider (oracle `provider`, one
invocation per attempt number), parse and validate the plan, derive the
priced trade instructions. -/
def attemptStep (provider : Nat → Except String String) (ctx : PricingCtx)
    (n : Nat) : Except String (ArbitragePlan × List TradeInput) :=
  match provider n with
  | Except.error m => Except.error m
  | Except.ok content =>
    match parseArbitragePlan content with
    | Except.error m => Except.error m
    | Except.ok plan =>
      match (buildTradesFromPlan ctx plan.arbitrages).1 with
      | Except.error m => Except.error m
      | Except.ok trades => Except.ok (plan, trades)

/-- The attempt loop of `runLlmPlan` (llmService.ts lines 156-201), started
at attempt number `n` with the given fuel (the `for` loop plus the
unreachable post-loop throw).  Any error thrown inside the `try` block —
including the `LlmPlanExecutionError` raised on a ledger failure — is caught
by the loop's `catch`, which rethrows only when `attempt >= MAX_PLAN_ATTEMPTS`
and otherwise retries.  The second component counts provider invocations
(= attempts entered). -/
def runFrom (provider : Nat → Except String String) (ctx : PricingCtx)
    (s : PortfolioState) (dryRun : Bool) : Nat → Nat → RunOutcome × Nat
  | 0, n => (RunOutcome.failed "LLM plan failed after maximum retry attempts", n - 1)
  | fuel + 1, n =>
    match attemptStep provider ctx n with
    | Except.error m =>
      if MAX_PLAN_ATTEMPTS ≤ n then (RunOutcome.failed m, n)
      else runFrom provider ctx s dryRun fuel (n + 1)
    | Except.ok (plan, trades) =>
      if dryRun || trades.isEmpty then (RunOutcome.success false plan trades s, n)
      else
        match executeTradeInputs trades s with
        | Except.ok s2 => (RunOutcome.success true plan trades s2, n)
        | Except.error m =>
          if MAX_PLAN_ATTEMPTS ≤ n then (RunOutcome.execFailed m plan trades, n)
          else runFrom provider ctx s dryRun fuel (n + 1)

/-- Embedding of `runLlmPlan` (llmService.ts lines 134-202) from the point
where the rendered prompts are fixed: the bounded attempt loop starting at
attempt 1. -/
def runLlmPlanModel (provider : Nat → Except String String) (ctx : PricingCtx)
    (s : PortfolioState) (dryRun : Bool) : RunOutcome × Nat :=
  runFrom provider ctx s dryRun MAX_PLAN_ATTEMPTS 1

/-- Plan object that is valid except that its `generatedAt` is an arbitrary
string, used to probe the schema's (non-)enforcement of the timestamp
format. -/
def mkGeneratedAtPlan (g : String) : Json :=
  Json.obj [("version", Json.str "1.0"), ("generatedAt", Json.str g),
    ("arbitrages", Json.arr [Json.obj [("symbol", Json.str "AAPL"),
      ("action", Json.str "BUY"), ("quantity", Json.num 1)]])]

/-- C10: plan schema validation accepts any string for `generatedAt`: an
otherwise-valid plan passes `arbitragePlanSchema` whatever string is used,
because ISO-8601 appears only as a description in the published JSON Schema
and is never enforced on the execution path. -/
theorem C10_generatedAt_any_string_passes (g : String) :
    validateArbitragePlan (mkGeneratedAtPlan g)
      = Except.ok ⟨"1.0", g,
          [⟨"AAPL", TradeSide.BUY, 1, OrderType.market, none, none, none⟩]⟩ := rfl

/-- Witness for C10 at the concrete non-timestamp string of the claim. -/
theorem C10_generatedAt_any_string_passes_witness :
    validateArbitragePlan (mkGeneratedAtPlan "not a timestamp")
      = Except.ok ⟨"1.0", "not a timestamp",
          [⟨"AAPL", TradeSide.BUY, 1, OrderType.market, none, none, none⟩]⟩ :=
  C10_generatedAt_any_string_passes "not a timestamp"

def c8MarketOrder : ArbitrageOrder :=
  ⟨"AAPL", TradeSide.BUY, 1, OrderType.market, none, none, none⟩

def c8LimitOrder : ArbitrageOrder :=
  ⟨"MSFT", TradeSide.BUY, 1, OrderType.limit, none, none, none⟩

/-- Pricing context with an in-context quote for AAPL only and a failing
live quote oracle. -/
def c8Ctx : PricingCtx :=
  ⟨fun s => if s == "AAPL" then some ⟨some 100, none⟩ else none,
   fun _ => Except.error "network down"⟩

/-- A plan whose second order is a limit order with no `limitPrice`. -/
def c8PlanJson : Json :=
  Json.obj [("version", Json.str "1.0"),
    ("generatedAt", Json.str "2025-01-01T00:00:00Z"),
    ("arbitrages", Json.arr [
      Json.obj [("symbol", Json.str "AAPL"), ("action", Json.str "BUY"),
        ("quantity", Json.num 1)],
      Json.obj [("symbol", Json.str "MSFT"), ("action", Json.str "BUY"),
        ("quantity", Json.num 1), ("orderType", Json.str "limit")]])]

unseal Rat.add Rat.mul Rat.sub Rat.inv in
/-- Counterexample to C8 as stated: a plan with a limit order lacking
`limitPrice` passes `arbitragePlanSchema` (the schema does not pair the two
fields), and during trade derivation the pricing of the preceding AAPL
market order has already run (trace `["AAPL"]`) before the MSFT order is
rejected by `normalizeOrder` — so the plan does not fail validation, and a
quote lookup is performed on behalf of an order of that plan. -/
theorem C8_counterexample :
    validateArbitragePlan c8PlanJson
      = Except.ok ⟨"1.0", "2025-01-01T00:00:00Z", [c8MarketOrder, c8LimitOrder]⟩
    ∧ buildTradesFromPlan c8Ctx [c8MarketOrder, c8LimitOrder]
      = (Except.error "Order for MSFT is limit but has no limitPrice", ["AAPL"])
    ∧ ["AAPL"] ≠ ([] : List String) := ⟨rfl, rfl, by decide⟩

theorem normalizeOrder_limit_none {o : ArbitrageOrder}
    (h2 : o.orderType = OrderType.limit) (h3 : o.limitPrice = none) :
    ∃ m, normalizeOrder o = Except.error m := by
  unfold normalizeOrder
  by_cases hq : o.quantity ≤ 0
  · rw [if_pos hq]; exact ⟨_, rfl⟩
  · rw [if_neg hq, if_pos ⟨h2, h3⟩]; exact ⟨_, rfl⟩

/-- C8, amended: a plan containing a limit order with no limit price always
fails trade-instruction derivation (so it is rejected before any ledger
call, and the offending order itself is never priced); when the offending
order is the first of the plan, no pricing at all has run at failure time —
but pricing of orders preceding it may already have run. -/
theorem C8_limit_without_price_fails_before_own_pricing
    (ctx : PricingCtx) (orders : List ArbitrageOrder) (o : ArbitrageOrder)
    (h1 : o ∈ orders) (h2 : o.orderType = OrderType.limit)
    (h3 : o.limitPrice = none) :
    (∃ m, (buildTradesFromPlan ctx orders).1 = Except.error m)
    ∧ (∀ rest, orders = o :: rest →
        ∃ m, buildTradesFromPlan ctx orders = (Except.error m, [])) := by
  constructor
  · induction orders with
    | nil => cases h1
    | cons hd tl ih =>
      rcases List.mem_cons.mp h1 with heq | hmem
      · subst heq
        obtain ⟨m, hm⟩ := normalizeOrder_limit_none h2 h3
        exact ⟨m, by simp only [buildTradesFromPlan, hm]⟩
      · cases hnorm : normalizeOrder hd with
        | error m => exact ⟨m, by simp only [buildTradesFromPlan, hnorm]⟩
        | ok o2 =>
          cases hp : determinePriceForOrder ctx o2 with
          | error m => exact ⟨m, by simp only [buildTradesFromPlan, hnorm, hp]⟩
          | ok p =>
            obtain ⟨m, hm⟩ := ih hmem
            refine ⟨m, ?_⟩
            simp only [buildTradesFromPlan, hnorm, hp]
            rcases hsplit : buildTradesFromPlan ctx tl with ⟨r, tr⟩
            rw [hsplit] at hm
            simp only [] at hm
            simp only [hm, Except.map]
  · intro rest horders
    subst horders
    obtain ⟨m, hm⟩ := normalizeOrder_limit_none h2 h3
    exact ⟨m, by simp only [buildTradesFromPlan, hm]⟩

unseal Rat.add Rat.mul Rat.sub Rat.inv in
/-- Witness for the amended C8 at the concrete two-order plan and at the
plan with the offending order first. -/
theorem C8_limit_without_price_fails_before_own_pricing_witness :
    (∃ m, (buildTradesFromPlan c8Ctx [c8MarketOrder, c8LimitOrder]).1
        = Except.error m)
    ∧ (∃ m, buildTradesFromPlan c8Ctx [c8LimitOrder] = (Except.error m, [])) := by
  constructor
  · exact (C8_limit_without_price_fails_before_own_pricing c8Ctx
      [c8MarketOrder, c8LimitOrder] c8LimitOrder (by decide) rfl rfl).1
  · exact (C8_limit_without_price_fails_before_own_pricing c8Ctx
      [c8LimitOrder] c8LimitOrder (by decide) rfl rfl).2 [] rfl

/-- Counterexample to C9 as stated: for a fenced input whose stripped
remainder is not JSON, no attempt yields valid JSON, yet extraction succeeds
with the non-JSON remainder and the later failure is the JSON parse
(syntax) error, not the unable-to-extract error; likewise a brace substring
that fails to parse raises the syntax error, not the extraction error. -/
theorem C9_counterexample :
    extractJson "```oops```" = Except.ok "oops"
    ∧ parseJson "oops" = none
    ∧ parseArbitragePlan "```oops```" = Except.error syntaxErrorMessage
    ∧ extractJson "see \x7bnot json\x7d end" = Except.error ExtractErr.syntaxError :=
  ⟨rfl, rfl, rfl, rfl⟩

/-- C9, amended: extraction tries, in order, fence-stripping (returning the
trimmed remainder with no JSON validity check), whole-text parsing, and the
first-brace-to-last-brace substring; the unable-to-extract error is raised
exactly for non-fenced inputs whose whole text does not parse and that have
no brace pair, while a non-parsing brace substring raises the JSON syntax
error instead; fenced JSON, commentary-wrapped JSON and raw JSON of the same
object still all extract to the same parsed object. -/
theorem C9_extraction_order_and_error_modes (s : String) :
    (startsWithList s.data ticks3 = true →
      extractJson s = Except.ok (trimS (stripFences s)))
    ∧ (startsWithList s.data ticks3 = false → (parseJson s).isSome = true →
      extractJson s = Except.ok s)
    ∧ (∀ c, startsWithList s.data ticks3 = false → parseJson s = none →
      braceSlice s = some c → (parseJson c).isSome = true →
      extractJson s = Except.ok c)
    ∧ (∀ c, startsWithList s.data ticks3 = false → parseJson s = none →
      braceSlice s = some c → parseJson c = none →
      extractJson s = Except.error ExtractErr.syntaxError)
    ∧ (startsWithList s.data ticks3 = false → parseJson s = none →
      braceSlice s = none →
      extractJson s = Except.error ExtractErr.extractionError) := by
  refine ⟨?_, ?_, ?_, ?_, ?_⟩
  · intro h
    simp only [extractJson]
    rw [if_pos h]
  · intro h1 h2
    simp only [extractJson]
    rw [if_neg (by simp [h1]), if_pos h2]
  · intro c h1 h2 h3 h4
    simp only [extractJson]
    rw [if_neg (by simp [h1]), if_neg (by simp [h2]), h3]
    simp only [if_pos h4]
  · intro c h1 h2 h3 h4
    simp only [extractJson]
    rw [if_neg (by simp [h1]), if_neg (by simp [h2]), h3]
    simp only [h4, Option.isSome_none, Bool.false_eq_true, if_false]
  · intro h1 h2 h3
    simp only [extractJson]
    rw [if_neg (by simp [h1]), if_neg (by simp [h2]), h3]

def c9Raw : String := "\x7b\"alpha\": \"x\"\x7d"

def c9Obj : Json := Json.obj [("alpha", Json.str "x")]

def c9Fenced : String := "```json\n\x7b\"alpha\": \"x\"\x7d\n```"

def c9Commented : String := "Here is the plan: \x7b\"alpha\": \"x\"\x7d thanks"

/-- Witness for the amended C9: raw, fenced and commentary-wrapped forms of
the same object extract to the same payload, which parses to the same
object; an input with no recoverable brace pair raises the extraction
error. -/
theorem C9_extraction_order_and_error_modes_witness :
    extractJson c9Raw = Except.ok c9Raw
    ∧ extractJson c9Fenced = Except.ok c9Raw
    ∧ extractJson c9Commented = Except.ok c9Raw
    ∧ parseJson c9Raw = some c9Obj
    ∧ extractJson "no json here" = Except.error ExtractErr.extractionError := by
  refine ⟨?_, ?_, ?_, rfl, ?_⟩
  · exact (C9_extraction_order_and_error_modes c9Raw).2.1 rfl rfl
  · exact (C9_extraction_order_and_error_modes c9Fenced).1 rfl
  · exact (C9_extraction_order_and_error_modes c9Commented).2.2.1 c9Raw rfl rfl rfl rfl
  · exact (C9_extraction_order_and_error_modes "no json here").2.2.2.2 rfl rfl rfl

theorem runFrom_step_error {provider : Nat → Except String String}
    {ctx : PricingCtx} {s : PortfolioState} {dryRun : Bool} {fuel n : Nat}
    {m : String} (hstep : attemptStep provider ctx n = Except.error m) :
    runFrom provider ctx s dryRun (fuel + 1) n =
      if MAX_PLAN_ATTEMPTS ≤ n then (RunOutcome.failed m, n)
      else runFrom provider ctx s dryRun fuel (n + 1) := by
  simp only [runFrom, hstep]

theorem runFrom_step_ok {provider : Nat → Except String String}
    {ctx : PricingCtx} {s : PortfolioState} {dryRun : Bool} {fuel n : Nat}
    {plan : ArbitragePlan} {trades : List TradeInput}
    (hstep : attemptStep provider ctx n = Except.ok (plan, trades)) :
    runFrom provider ctx s dryRun (fuel + 1) n =
      if dryRun || trades.isEmpty then (RunOutcome.success false plan trades s, n)
      else
        match executeTradeInputs trades s with
        | Except.ok s2 => (RunOutcome.success true plan trades s2, n)
        | Except.error m =>
          if MAX_PLAN_ATTEMPTS ≤ n then (RunOutcome.execFailed m plan trades, n)
          else runFrom provider ctx s dryRun fuel (n + 1) := by
  simp only [runFrom, hstep]

theorem runFrom_count_le (provider : Nat → Except String String)
    (ctx : PricingCtx) (s : PortfolioState) (dryRun : Bool) :
    ∀ fuel n, n ≤ MAX_PLAN_ATTEMPTS →
      (runFrom provider ctx s dryRun fuel n).2 ≤ MAX_PLAN_ATTEMPTS := by
  intro fuel
  induction fuel with
  | zero =>
    intro n hn
    simp only [runFrom]
    omega
  | succ fuel ih =>
    intro n hn
    cases hstep : attemptStep provider ctx n with
    | error m =>
      rw [runFrom_step_error hstep]
      by_cases hle : MAX_PLAN_ATTEMPTS ≤ n
      · rw [if_pos hle]; exact hn
      · rw [if_neg hle]
        exact ih (n + 1) (by unfold MAX_PLAN_ATTEMPTS at *; omega)
    | ok pt =>
      rcases pt with ⟨plan, trades⟩
      rw [runFrom_step_ok hstep]
      by_cases hd : (dryRun || trades.isEmpty) = true
      · rw [if_pos hd]; exact hn
      · rw [if_neg hd]
        cases hex : executeTradeInputs trades s with
        | ok s2 => simp only [hex]; exact hn
        | error m =>
          simp only [hex]
          by_cases hle : MAX_PLAN_ATTEMPTS ≤ n
          · rw [if_pos hle]; exact hn
          · rw [if_neg hle]
            exact ih (n + 1) (by unfold MAX_PLAN_ATTEMPTS at *; omega)

/-- C3: the provider adapter is invoked at most 3 times per run; two failed
attempts followed by a fully successful third attempt yield a successful run
with exactly 3 invocations (both for an executed run and for a dry run); and
three failed attempts yield a failed run with exactly 3 invocations and the
last attempt's error surfaced. -/
theorem C3_retry_bound (provider : Nat → Except String String) (ctx : PricingCtx) :
    (∀ s dryRun, (runLlmPlanModel provider ctx s dryRun).2 ≤ MAX_PLAN_ATTEMPTS)
    ∧ (∀ e1 e2 plan trades (s s' : PortfolioState),
        attemptStep provider ctx 1 = Except.error e1 →
        attemptStep provider ctx 2 = Except.error e2 →
        attemptStep provider ctx 3 = Except.ok (plan, trades) →
        trades.isEmpty = false →
        executeTradeInputs trades s = Except.ok s' →
        runLlmPlanModel provider ctx s false
          = (RunOutcome.success true plan trades s', 3))
    ∧ (∀ e1 e2 plan trades (s : PortfolioState),
        attemptStep provider ctx 1 = Except.error e1 →
        attemptStep provider ctx 2 = Except.error e2 →
        attemptStep provider ctx 3 = Except.ok (plan, trades) →
        runLlmPlanModel provider ctx s true
          = (RunOutcome.success false plan trades s, 3))
    ∧ (∀ e1 e2 e3 (s : PortfolioState) dryRun,
        attemptStep provider ctx 1 = Except.error e1 →
        attemptStep provider ctx 2 = Except.error e2 →
        attemptStep provider ctx 3 = Except.error e3 →
        runLlmPlanModel provider ctx s dryRun = (RunOutcome.failed e3, 3)) := by
  refine ⟨?_, ?_, ?_, ?_⟩
  · intro s dryRun
    exact runFrom_count_le provider ctx s dryRun MAX_PLAN_ATTEMPTS 1 (by decide)
  · intro e1 e2 plan trades s s' h1 h2 h3 hne hex
    show runFrom provider ctx s false 3 1 = _
    rw [runFrom_step_error h1, if_neg (by decide), runFrom_step_error h2,
      if_neg (by decide), runFrom_step_ok h3, hex]
    simp [hne]
  · intro e1 e2 plan trades s h1 h2 h3
    show runFrom provider ctx s true 3 1 = _
    rw [runFrom_step_error h1, if_neg (by decide), runFrom_step_error h2,
      if_neg (by decide), runFrom_step_ok h3]
    simp
  · intro e1 e2 e3 s dryRun h1 h2 h3
    show runFrom provider ctx s dryRun 3 1 = _
    rw [runFrom_step_error h1, if_neg (by decide), runFrom_step_error h2,
      if_neg (by decide), runFrom_step_error h3, if_pos (by decide)]

/-- Model output used by the runner witnesses: a raw JSON plan with one
1-share BUY market order for AAPL. -/
def samplePlanContent : String :=
  "\x7b\"version\":\"1.0\",\"generatedAt\":\"2025-01-01T00:00:00Z\",\"arbitrages\":[\x7b\"symbol\":\"AAPL\",\"action\":\"BUY\",\"quantity\":1\x7d]\x7d"

def samplePlanCtx : PricingCtx :=
  ⟨fun s => if s == "AAPL" then some ⟨some 100, some 99⟩ else none,
   fun _ => Except.error "network down"⟩

def samplePlan : ArbitragePlan :=
  ⟨"1.0", "2025-01-01T00:00:00Z",
   [⟨"AAPL", TradeSide.BUY, 1, OrderType.market, none, none, none⟩]⟩

def sampleTrades : List TradeInput := [⟨"AAPL", TradeSide.BUY, 1, 100⟩]

/-- Provider oracle failing on attempts 1 and 2 and succeeding on attempt 3. -/
def c3Provider : Nat → Except String String := fun n =>
  if n < 3 then Except.error "provider unavailable" else Except.ok samplePlanContent

set_option maxRecDepth 10000 in
unseal Rat.add Rat.mul Rat.sub Rat.inv in
/-- Witness for C3: two provider failures then a successful third attempt
give a successful run (dry and executed) with exactly 3 invocations; three
failures give a failed run with 3 invocations and the last error. -/
theorem C3_retry_bound_witness :
    runLlmPlanModel c3Provider samplePlanCtx ⟨10000, [], []⟩ true
      = (RunOutcome.success false samplePlan sampleTrades ⟨10000, [], []⟩, 3)
    ∧ runLlmPlanModel c3Provider samplePlanCtx ⟨10000, [], []⟩ false
      = (RunOutcome.success true samplePlan sampleTrades
          ⟨9900, [⟨"AAPL", 1, 100⟩], [⟨"AAPL", TradeSide.BUY, 1, 100⟩]⟩, 3)
    ∧ runLlmPlanModel (fun _ => Except.error "provider down") samplePlanCtx
        ⟨10000, [], []⟩ false = (RunOutcome.failed "provider down", 3)
    ∧ (runLlmPlanModel c3Provider samplePlanCtx ⟨10000, [], []⟩ true).2
        ≤ MAX_PLAN_ATTEMPTS := by
  refine ⟨?_, ?_, ?_, ?_⟩
  · exact (C3_retry_bound c3Provider samplePlanCtx).2.2.1 "provider unavailable"
      "provider unavailable" samplePlan sampleTrades ⟨10000, [], []⟩ rfl rfl rfl
  · exact (C3_retry_bound c3Provider samplePlanCtx).2.1 "provider unavailable"
      "provider unavailable" samplePlan sampleTrades ⟨10000, [], []⟩
      ⟨9900, [⟨"AAPL", 1, 100⟩], [⟨"AAPL", TradeSide.BUY, 1, 100⟩]⟩
      rfl rfl rfl rfl rfl
  · exact (C3_retry_bound (fun _ => Except.error "provider down")
      samplePlanCtx).2.2.2 "provider down" "provider down" "provider down"
      ⟨10000, [], []⟩ false rfl rfl rfl
  · exact (C3_retry_bound c3Provider samplePlanCtx).1 ⟨10000, [], []⟩ true

theorem runFrom_step_execfail {provider : Nat → Except String String}
    {ctx : PricingCtx} {s : PortfolioState} {fuel n : Nat}
    {plan : ArbitragePlan} {trades : List TradeInput} {m : String}
    (hstep : attemptStep provider ctx n = Except.ok (plan, trades))
    (hne : trades.isEmpty = false)
    (hex : executeTradeInputs trades s = Except.error m) :
    runFrom provider ctx s false (fuel + 1) n =
      if MAX_PLAN_ATTEMPTS ≤ n then (RunOutcome.execFailed m plan trades, n)
      else runFrom provider ctx s false fuel (n + 1) := by
  rw [runFrom_step_ok hstep]
  simp [hne, hex]

/-- Provider oracle that produces the sample plan on every attempt. -/
def c1Provider : Nat → Except String String := fun _ => Except.ok samplePlanContent

set_option maxRecDepth 10000 in
unseal Rat.add Rat.mul Rat.sub Rat.inv in
/-- Counterexample to C1 as stated: with a provider that always returns a
valid plan and a portfolio whose cash (50) cannot cover the planned BUY
(notional 100), the ledger failure of attempt 1 is caught by the retry loop
and the provider is invoked again — 3 invocations in total, not 1, so a
ledger failure IS retried; `LlmPlanExecutionError` (with the plan and the
attempted instructions) surfaces only from the final attempt. -/
theorem C1_counterexample :
    runLlmPlanModel c1Provider samplePlanCtx ⟨50, [], []⟩ false
      = (RunOutcome.execFailed "Insufficient cash balance for this trade"
          samplePlan sampleTrades, 3)
    ∧ (runLlmPlanModel c1Provider samplePlanCtx ⟨50, [], []⟩ false).2 ≠ 1 := by
  have h : runLlmPlanModel c1Provider samplePlanCtx ⟨50, [], []⟩ false
      = (RunOutcome.execFailed "Insufficient cash balance for this trade"
          samplePlan sampleTrades, 3) := rfl
  exact ⟨h, by rw [h]; decide⟩

/-- C1, amended: a ledger failure inside `runLlmPlan` is retried like any
other attempt failure; when every attempt produces the same valid plan and
instructions and the ledger rejects them every time, the run ends after all
3 provider invocations in the distinct execution-failed outcome
(`LlmPlanExecutionError`) that still carries the plan and the attempted
trade instructions. -/
theorem C1_ledger_failure_retried_then_surfaced
    (provider : Nat → Except String String) (ctx : PricingCtx)
    (s : PortfolioState) (plan : ArbitragePlan) (trades : List TradeInput)
    (m : String)
    (hstep : ∀ n, attemptStep provider ctx n = Except.ok (plan, trades))
    (hne : trades.isEmpty = false)
    (hex : executeTradeInputs trades s = Except.error m) :
    runLlmPlanModel provider ctx s false
      = (RunOutcome.execFailed m plan trades, 3) := by
  show runFrom provider ctx s false 3 1 = _
  rw [runFrom_step_execfail (hstep 1) hne hex, if_neg (by decide),
    runFrom_step_execfail (hstep 2) hne hex, if_neg (by decide),
    runFrom_step_execfail (hstep 3) hne hex, if_pos (by decide)]

set_option maxRecDepth 10000 in
unseal Rat.add Rat.mul Rat.sub Rat.inv in
/-- Witness for the amended C1 at the concrete insufficient-cash run. -/
theorem C1_ledger_failure_retried_then_surfaced_witness :
    runLlmPlanModel c1Provider samplePlanCtx ⟨50, [], []⟩ false
      = (RunOutcome.execFailed "Insufficient cash balance for this trade"
          samplePlan sampleTrades, 3) :=
  C1_ledger_failure_retried_then_surfaced c1Provider samplePlanCtx ⟨50, [], []⟩
    samplePlan sampleTrades "Insufficient cash balance for this trade"
    (fun _ => rfl) rfl rfl
